import Mathlib

/-!
# Verification of the trading-robot indicator and signal engine

Shallow embedding of the core logic of `src/dashboard.py`
(`calculate_technical_indicators`, `generate_signal`) and `src/main.py`
(`simple_moving_average`).

Modelling conventions:
* pandas float values are embedded as `ℚ`; a NaN cell is `none : Option ℚ`.
* A DataFrame is a `Frame`: the list of OHLCV bars plus one optional field
  per indicator column (`none` = the column is absent from the frame).
  pandas guarantees every column of a frame has the frame's length, so
  `iloc[-1]` on a column is the entry at index `length - 1`.
* `Series.rolling(window=w).mean()` with the default `min_periods` yields
  NaN at every index `i` with `i + 1 < w` and the trailing mean otherwise.
* IEEE division semantics of `rs = gain / loss` are embedded explicitly:
  positive/0 = +inf (so RSI = 100), 0/0 = NaN (so RSI is NaN).
* A raised Python exception (e.g. `KeyError` on a missing column) is a
  `none` result of the embedded function.
-/

namespace Robot

/-- One OHLCV row of the DataFrame (`opn` is the Open column; `open` is a
Lean keyword). -/
structure Bar where
  opn : ℚ
  high : ℚ
  low : ℚ
  close : ℚ
  volume : ℚ
  deriving DecidableEq, Repr

/-- A pandas DataFrame as used by `dashboard.py`: the OHLCV rows plus the
indicator columns that `calculate_technical_indicators` may have assigned.
A `none` field means the frame does not have that column.  The Bollinger
band columns hold real numbers because their values involve a square
root. -/
structure Frame where
  bars : List Bar
  sma20 : Option (List (Option ℚ))
  sma50 : Option (List (Option ℚ))
  rsi : Option (List (Option ℚ))
  bbMiddle : Option (List (Option ℚ))
  bbUpper : Option (List (Option ℝ))
  bbLower : Option (List (Option ℝ))

/-- The triple returned by `generate_signal`. -/
structure Signal where
  kind : String
  reason : String
  confidence : ℚ
  deriving DecidableEq, Repr

/-- Element of a column at an index; out of range reads as an undefined
cell. -/
def colGet {α : Type} (col : List (Option α)) (i : ℕ) : Option α :=
  col.getD i none

/-- The `Close` column of a frame. -/
def closes (df : Frame) : List ℚ :=
  df.bars.map Bar.close

/-- The trailing window of width `w` ending at index `i` (the slice
pandas averages for `rolling(window=w)` at row `i`). -/
def windowAt (xs : List ℚ) (w i : ℕ) : List ℚ :=
  (xs.drop (i + 1 - w)).take w

/-- Embedding of `Series.rolling(window=w).mean()`: NaN until a full window of `w`
values is available, then the arithmetic mean of the trailing window. -/
def rollingMean (xs : List ℚ) (w : ℕ) : List (Option ℚ) :=
  (List.range xs.length).map fun i =>
    if i + 1 < w then none
    else some ((windowAt xs w i).sum / (w : ℚ))

/-- Embedding of `Series.rolling(window=w).std() ** 2`: the trailing sample variance
(pandas default `ddof = 1`, i.e. divide by `w - 1`). -/
def rollingVar (xs : List ℚ) (w : ℕ) : List (Option ℚ) :=
  (List.range xs.length).map fun i =>
    if i + 1 < w then none
    else some (((windowAt xs w i).map
      fun x => (x - (windowAt xs w i).sum / (w : ℚ)) ^ 2).sum / ((w : ℚ) - 1))

/-- Embedding of `delta.where(delta > 0, 0)` with `delta = close.diff()`:
the NaN delta of the first row fails the `delta > 0` test, so pandas
replaces it with 0, exactly like every non-positive delta. -/
def gains (cs : List ℚ) : List ℚ :=
  match cs with
  | [] => []
  | _ :: _ => 0 :: List.zipWith (fun a b => max (b - a) 0) cs cs.tail

/-- Embedding of `-delta.where(delta < 0, 0)`: the NaN first delta again
becomes 0. -/
def losses (cs : List ℚ) : List ℚ :=
  match cs with
  | [] => []
  | _ :: _ => 0 :: List.zipWith (fun a b => max (a - b) 0) cs cs.tail

/-- Embedding of `gain.rolling(window=14).mean()` of `dashboard.py`. -/
def avgGainCol (cs : List ℚ) : List (Option ℚ) :=
  rollingMean (gains cs) 14

/-- Embedding of `loss.rolling(window=14).mean()` of `dashboard.py`. -/
def avgLossCol (cs : List ℚ) : List (Option ℚ) :=
  rollingMean (losses cs) 14

/-- Embedding of `RSI = 100 - 100 / (1 + gain/loss)` per row, with IEEE semantics of
the division: `gain/0 = +inf` gives RSI 100 when `gain > 0`, and
`0/0 = NaN` keeps RSI NaN; a NaN average propagates. -/
def rsiCol (cs : List ℚ) : List (Option ℚ) :=
  (List.range cs.length).map fun i =>
    match colGet (avgGainCol cs) i, colGet (avgLossCol cs) i with
    | some g, some l =>
      if l = 0 then
        if g = 0 then none else some 100
      else some (100 - 100 / (1 + g / l))
    | _, _ => none

/-- Embedding of `BB_Middle = Close.rolling(window=20).mean()`. -/
def bbMiddleCol (cs : List ℚ) : List (Option ℚ) :=
  rollingMean cs 20

/-- Embedding of `BB_Upper = BB_Middle + bb_std * 2` with
`bb_std = Close.rolling(window=20).std()`. -/
noncomputable def bbUpperCol (cs : List ℚ) : List (Option ℝ) :=
  (List.range cs.length).map fun i =>
    match colGet (bbMiddleCol cs) i, colGet (rollingVar cs 20) i with
    | some m, some v => some ((m : ℝ) + Real.sqrt (v : ℝ) * 2)
    | _, _ => none

/-- Embedding of `BB_Lower = BB_Middle - bb_std * 2`. -/
noncomputable def bbLowerCol (cs : List ℚ) : List (Option ℝ) :=
  (List.range cs.length).map fun i =>
    match colGet (bbMiddleCol cs) i, colGet (rollingVar cs 20) i with
    | some m, some v => some ((m : ℝ) - Real.sqrt (v : ℝ) * 2)
    | _, _ => none

/-- Embedding of `simple_moving_average(data, window)` of `src/main.py`:
`data['Close'].rolling(window=window).mean()`. -/
def simple_moving_average (df : Frame) (window : ℕ) : List (Option ℚ) :=
  rollingMean (closes df) window

/-- The six column assignments of `calculate_technical_indicators`
performed on a frame of length at least 20: each assignment stores a
whole indicator column on the frame, overwriting any previous column of
that name. -/
noncomputable def enrich (df : Frame) : Frame :=
  ⟨df.bars,
    some (rollingMean (closes df) 20),
    some (rollingMean (closes df) 50),
    some (rsiCol (closes df)),
    some (bbMiddleCol (closes df)),
    some (bbUpperCol (closes df)),
    some (bbLowerCol (closes df))⟩

/-- Return value of `calculate_technical_indicators(data)`: `None` when
`data is None or len(data) < 20`, otherwise the argument frame enriched
with the indicator columns. -/
noncomputable def calculate_technical_indicators (odf : Option Frame) :
    Option Frame :=
  match odf with
  | none => none
  | some df => if df.bars.length < 20 then none else some (enrich df)

/-- State of the argument object after `calculate_technical_indicators`
returns: the column assignments `data['SMA_20'] = ...` etc. act on the
caller's frame in place, so for a frame of length at least 20 the
caller's frame has gained the indicator columns; a shorter frame is
returned from before the assignments and stays untouched. -/
noncomputable def calculate_technical_indicators_effect (df : Frame) :
    Frame :=
  if df.bars.length < 20 then df else enrich df

/-- Round half to even, as Python float formatting does. -/
def roundHalfEven (q : ℚ) : ℤ :=
  let f := ⌊q⌋
  let frac := q - (f : ℚ)
  if frac < 1 / 2 then f
  else if 1 / 2 < frac then f + 1
  else if f % 2 = 0 then f else f + 1

/-- Python's `f"{x:.1f}"`: the value rendered with exactly one decimal
digit, rounding half to even. -/
def fmtOneDec (q : ℚ) : String :=
  let n := roundHalfEven (q * 10)
  let sign := if n < 0 then "-" else ""
  let m := n.natAbs
  sign ++ toString (m / 10) ++ "." ++ toString (m % 10)

/-- Embedding of `data['Close'].iloc[-1]`, the latest close of a frame.  The index is
in range whenever the frame is nonempty, so the `getD` default is inert
at every use site (`generate_signal` reads it only behind the 20-bar
guard). -/
def lastClose (df : Frame) : ℚ :=
  (closes df).getD (df.bars.length - 1) 0

/-- Embedding of `generate_signal(data)` of `dashboard.py`.  The input may be `None`
(the fetch failed); the `none` result models a raised `KeyError` when a
needed indicator column is absent from a frame of length at least 20
(this cannot happen on the enriched frames the dashboard feeds it). -/
def generate_signal (odf : Option Frame) : Option Signal :=
  match odf with
  | none => some ⟨"INSUFFICIENT_DATA", "Not enough data", 0⟩
  | some df =>
    if df.bars.length < 20 then
      some ⟨"INSUFFICIENT_DATA", "Not enough data", 0⟩
    else
      let price := lastClose df
      match df.sma20, df.rsi with
      | some sCol, some rCol =>
        match colGet sCol (df.bars.length - 1),
              colGet rCol (df.bars.length - 1) with
        | some s, some r =>
          if price > s then
            if r < 70 then
              some ⟨"BUY", "Price above SMA20, RSI: " ++ fmtOneDec r,
                min 80 (50 + (price - s) / s * 1000)⟩
            else
              some ⟨"NEUTRAL", "Mixed signals, RSI: " ++ fmtOneDec r, 40⟩
          else
            if r > 30 then
              some ⟨"SELL", "Price below SMA20, RSI: " ++ fmtOneDec r,
                min 80 (50 + (s - price) / s * 1000)⟩
            else
              some ⟨"NEUTRAL", "Mixed signals, RSI: " ++ fmtOneDec r, 40⟩
        | _, _ => some ⟨"NEUTRAL", "Calculating...", 50⟩
      | _, _ => none

/-! ## Shared helper lemmas -/

theorem colGet_range_map {α : Type} (f : ℕ → Option α) (n i : ℕ) :
    colGet ((List.range n).map f) i = if i < n then f i else none := by
  unfold colGet
  rcases lt_or_le i n with h | h
  · rw [List.getD_eq_getElem?_getD, List.getElem?_map, List.getElem?_range h]
    simp [h]
  · rw [List.getD_eq_getElem?_getD, List.getElem?_map,
      List.getElem?_eq_none (by simpa using h)]
    simp [not_lt.mpr h]

theorem rollingMean_spec (xs : List ℚ) (w i : ℕ) :
    colGet (rollingMean xs w) i =
      if i < xs.length then
        (if i + 1 < w then none else some ((windowAt xs w i).sum / (w : ℚ)))
      else none := by
  unfold rollingMean
  exact colGet_range_map _ _ _

theorem rollingMean_eq_some {xs : List ℚ} {w i : ℕ} {q : ℚ}
    (h : colGet (rollingMean xs w) i = some q) :
    i < xs.length ∧ w ≤ i + 1 ∧ q = (windowAt xs w i).sum / (w : ℚ) := by
  rw [rollingMean_spec] at h
  by_cases h1 : i < xs.length
  · rw [if_pos h1] at h
    by_cases h2 : i + 1 < w
    · rw [if_pos h2] at h; cases h
    · rw [if_neg h2] at h
      exact ⟨h1, not_lt.mp h2, (Option.some.injEq _ _ ▸ h).symm⟩
  · rw [if_neg h1] at h; cases h

theorem sum_take (l : List ℚ) (w : ℕ) (h : w ≤ l.length) :
    (l.take w).sum = ∑ j ∈ Finset.range w, l.getD j 0 := by
  induction w with
  | zero => simp
  | succ n ih =>
    have hn : n < l.length := lt_of_lt_of_le (Nat.lt_succ_self n) h
    rw [List.take_succ, List.sum_append, ih (le_of_lt hn),
      Finset.sum_range_succ]
    simp [List.getElem?_eq_getElem hn, List.getD_eq_getElem?_getD]

theorem getD_drop (l : List ℚ) (k j : ℕ) :
    (l.drop k).getD j 0 = l.getD (k + j) 0 := by
  rw [List.getD_eq_getElem?_getD, List.getD_eq_getElem?_getD,
    List.getElem?_drop]

theorem windowAt_length {xs : List ℚ} {w i : ℕ} (h1 : w ≤ i + 1)
    (h2 : i < xs.length) : (windowAt xs w i).length = w := by
  unfold windowAt
  rw [List.length_take, List.length_drop]
  omega

theorem windowAt_sum {xs : List ℚ} {w i : ℕ} (h1 : w ≤ i + 1)
    (h2 : i < xs.length) :
    (windowAt xs w i).sum = ∑ j ∈ Finset.range w, xs.getD (i + 1 - w + j) 0 := by
  unfold windowAt
  rw [sum_take _ _ (by rw [List.length_drop]; omega)]
  exact Finset.sum_congr rfl fun j _ => getD_drop xs (i + 1 - w) j

theorem mem_windowAt {xs : List ℚ} {w i : ℕ} {x : ℚ}
    (h : x ∈ windowAt xs w i) : x ∈ xs :=
  List.mem_of_mem_drop (List.mem_of_mem_take h)

theorem gains_length (cs : List ℚ) : (gains cs).length = cs.length := by
  cases cs with
  | nil => rfl
  | cons a l => simp [gains, List.length_zipWith]

theorem losses_length (cs : List ℚ) : (losses cs).length = cs.length := by
  cases cs with
  | nil => rfl
  | cons a l => simp [losses, List.length_zipWith]

theorem mem_zipWith_nonneg {f : ℚ → ℚ → ℚ} (hf : ∀ a b, 0 ≤ f a b) :
    ∀ (l1 l2 : List ℚ) (x : ℚ), x ∈ List.zipWith f l1 l2 → 0 ≤ x := by
  intro l1
  induction l1 with
  | nil => intro l2 x hx; simp [List.zipWith] at hx
  | cons a l ih =>
    intro l2 x hx
    cases l2 with
    | nil => simp [List.zipWith] at hx
    | cons b l2 =>
      rcases List.mem_cons.mp hx with rfl | hx
      · exact hf a b
      · exact ih l2 x hx

theorem gains_nonneg {cs : List ℚ} {x : ℚ} (h : x ∈ gains cs) : 0 ≤ x := by
  cases cs with
  | nil => simp [gains] at h
  | cons a l =>
    rcases List.mem_cons.mp h with rfl | h
    · exact le_refl 0
    · exact mem_zipWith_nonneg (fun a b => le_max_right _ _) _ _ _ h

theorem losses_nonneg {cs : List ℚ} {x : ℚ} (h : x ∈ losses cs) : 0 ≤ x := by
  cases cs with
  | nil => simp [losses] at h
  | cons a l =>
    rcases List.mem_cons.mp h with rfl | h
    · exact le_refl 0
    · exact mem_zipWith_nonneg (fun a b => le_max_right _ _) _ _ _ h

theorem rollingMean_nonneg {xs : List ℚ} {w i : ℕ} {q : ℚ}
    (hxs : ∀ x ∈ xs, 0 ≤ x) (h : colGet (rollingMean xs w) i = some q) :
    0 ≤ q := by
  obtain ⟨h1, h2, rfl⟩ := rollingMean_eq_some h
  exact div_nonneg
    (List.sum_nonneg fun x hx => hxs x (mem_windowAt hx))
    (by positivity)

theorem rsiCol_spec (cs : List ℚ) (i : ℕ) :
    colGet (rsiCol cs) i =
      if i < cs.length then
        (match colGet (avgGainCol cs) i, colGet (avgLossCol cs) i with
        | some g, some l =>
          if l = 0 then
            if g = 0 then none else some 100
          else some (100 - 100 / (1 + g / l))
        | _, _ => none)
      else none := by
  unfold rsiCol
  exact colGet_range_map _ _ _

theorem rollingMean_none {xs : List ℚ} {w i : ℕ} (h : i + 1 < w) :
    colGet (rollingMean xs w) i = none := by
  rw [rollingMean_spec]
  by_cases hi : i < xs.length
  · rw [if_pos hi, if_pos h]
  · rw [if_neg hi]

theorem rsiCol_undefined_lt13 (cs : List ℚ) (i : ℕ) (h : i < 13) :
    colGet (rsiCol cs) i = none := by
  rw [rsiCol_spec]
  by_cases hi : i < cs.length
  · rw [if_pos hi]
    have cg : colGet (avgGainCol cs) i = none := rollingMean_none (by omega)
    rw [cg]
  · rw [if_neg hi]

theorem bbUpperCol_none {cs : List ℚ} {i : ℕ} (h : i + 1 < 20) :
    colGet (bbUpperCol cs) i = none := by
  unfold bbUpperCol
  rw [colGet_range_map]
  by_cases hi : i < cs.length
  · rw [if_pos hi]
    have cm : colGet (bbMiddleCol cs) i = none := rollingMean_none h
    rw [cm]
  · rw [if_neg hi]

theorem bbLowerCol_none {cs : List ℚ} {i : ℕ} (h : i + 1 < 20) :
    colGet (bbLowerCol cs) i = none := by
  unfold bbLowerCol
  rw [colGet_range_map]
  by_cases hi : i < cs.length
  · rw [if_pos hi]
    have cm : colGet (bbMiddleCol cs) i = none := rollingMean_none h
    rw [cm]
  · rw [if_neg hi]



theorem rsiCol_cases {cs : List ℚ} {i : ℕ} {r : ℚ}
    (hr : colGet (rsiCol cs) i = some r) :
    ∃ g l, colGet (avgGainCol cs) i = some g ∧
      colGet (avgLossCol cs) i = some l ∧ 0 ≤ g ∧ 0 ≤ l ∧
      ((l = 0 ∧ g ≠ 0 ∧ r = 100) ∨
        (l ≠ 0 ∧ r = 100 - 100 / (1 + g / l))) := by
  rw [rsiCol_spec] at hr
  by_cases hi : i < cs.length
  · rw [if_pos hi] at hr
    rcases cg : colGet (avgGainCol cs) i with _ | g <;>
      rcases cl : colGet (avgLossCol cs) i with _ | l <;>
      rw [cg, cl] at hr
    · cases hr
    · cases hr
    · cases hr
    · have hg0 : 0 ≤ g := rollingMean_nonneg (fun x hx => gains_nonneg hx) cg
      have hl0 : 0 ≤ l := rollingMean_nonneg (fun x hx => losses_nonneg hx) cl
      refine ⟨g, l, rfl, rfl, hg0, hl0, ?_⟩
      have hr' : (if l = 0 then if g = 0 then none else some 100
          else some (100 - 100 / (1 + g / l))) = some r := hr
      by_cases h1 : l = 0
      · rw [if_pos h1] at hr'
        by_cases h2 : g = 0
        · rw [if_pos h2] at hr'; cases hr'
        · rw [if_neg h2] at hr'
          exact Or.inl ⟨h1, h2, (Option.some.inj hr').symm⟩
      · rw [if_neg h1] at hr'
        exact Or.inr ⟨h1, (Option.some.inj hr').symm⟩
  · rw [if_neg hi] at hr; cases hr

/-- C7: every defined rsi value lies in [0, 100]; it equals 100 exactly
when the trailing average loss is 0 and the trailing average gain is
positive; and a window with zero average gain and zero average loss (a
flat run) leaves rsi undefined. -/
theorem rsi_range (cs : List ℚ) (i : ℕ) :
    (∀ r, colGet (rsiCol cs) i = some r → 0 ≤ r ∧ r ≤ 100) ∧
    (∀ r g l, colGet (rsiCol cs) i = some r →
      colGet (avgGainCol cs) i = some g →
      colGet (avgLossCol cs) i = some l →
      (r = 100 ↔ l = 0 ∧ 0 < g)) ∧
    (∀ g l, colGet (avgGainCol cs) i = some g →
      colGet (avgLossCol cs) i = some l → g = 0 → l = 0 →
      colGet (rsiCol cs) i = none) := by
  refine ⟨?_, ?_, ?_⟩
  · intro r hr
    obtain ⟨g, l, cg, cl, hg0, hl0, hcase | hcase⟩ := rsiCol_cases hr
    · rw [hcase.2.2]; norm_num
    · obtain ⟨hl, rfl⟩ := hcase
      have hlpos : 0 < l := lt_of_le_of_ne hl0 (Ne.symm hl)
      have hq : 0 ≤ g / l := div_nonneg hg0 (le_of_lt hlpos)
      have h1 : (0 : ℚ) < 1 + g / l := by linarith
      have h2 : 100 / (1 + g / l) ≤ 100 := by
        apply div_le_self (by norm_num)
        linarith
      have h3 : 0 < 100 / (1 + g / l) := by positivity
      constructor <;> linarith
  · intro r g l hr cg cl
    obtain ⟨g', l', cg', cl', hg0, hl0, hcase | hcase⟩ := rsiCol_cases hr
    · obtain ⟨hl', hg', hr100⟩ := hcase
      have eg : g' = g := Option.some.inj (cg' ▸ cg)
      have el : l' = l := Option.some.inj (cl' ▸ cl)
      subst eg; subst el
      constructor
      · intro _; exact ⟨hl', lt_of_le_of_ne hg0 (Ne.symm hg')⟩
      · intro _; exact hr100
    · obtain ⟨hl', rfl⟩ := hcase
      have eg : g' = g := Option.some.inj (cg' ▸ cg)
      have el : l' = l := Option.some.inj (cl' ▸ cl)
      subst eg; subst el
      have hlpos : 0 < l' := lt_of_le_of_ne hl0 (Ne.symm hl')
      have hq : 0 ≤ g' / l' := div_nonneg hg0 (le_of_lt hlpos)
      have h1 : (0 : ℚ) < 1 + g' / l' := by linarith
      have h3 : 0 < 100 / (1 + g' / l') := by positivity
      constructor
      · intro h; exfalso; linarith [h]
      · rintro ⟨h, -⟩; exact absurd h hl'
  · intro g l cg cl hg0 hl0
    by_contra hne
    obtain ⟨r, hr⟩ := Option.ne_none_iff_exists'.mp hne
    obtain ⟨g', l', cg', cl', _, _, hcase | hcase⟩ := rsiCol_cases hr
    · have eg : g' = g := Option.some.inj (cg' ▸ cg)
      exact hcase.2.1 (eg ▸ hg0)
    · have el : l' = l := Option.some.inj (cl' ▸ cl)
      exact hcase.1 (el ▸ hl0)

def rsiW : List ℚ := [10, 9, 9, 9, 9, 9, 9, 9, 9, 9, 9, 9, 9, 9]

theorem rsi_range_witness :
    colGet (rsiCol rsiW) 13 = some 0 ∧ ((0 : ℚ) ≤ 0 ∧ (0 : ℚ) ≤ 100) :=
  ⟨by with_unfolding_all decide,
    (rsi_range rsiW 13).1 0 (by with_unfolding_all decide)⟩




/-- C6: `simple_moving_average` returns a column of the input's length;
entries before index `w - 1` are undefined, and from index `w - 1` on the
entry is exactly the arithmetic mean of the trailing `w` closes
(`window >= 1`, as pandas requires of `rolling`). -/
theorem simple_moving_average_spec (df : Frame) (w : ℕ) (_hw : 1 ≤ w) :
    (simple_moving_average df w).length = df.bars.length ∧
    ∀ i, i < df.bars.length →
      (i + 1 < w → colGet (simple_moving_average df w) i = none) ∧
      (w ≤ i + 1 →
        colGet (simple_moving_average df w) i =
          some ((∑ j ∈ Finset.range w,
            (closes df).getD (i + 1 - w + j) 0) / (w : ℚ))) := by
  have hlen : (closes df).length = df.bars.length := List.length_map _ _
  constructor
  · simp [simple_moving_average, rollingMean, hlen]
  · intro i hi
    have hi' : i < (closes df).length := by rw [hlen]; exact hi
    constructor
    · intro hlt
      show colGet (rollingMean (closes df) w) i = none
      rw [rollingMean_spec, if_pos hi', if_pos hlt]
    · intro hge
      show colGet (rollingMean (closes df) w) i = _
      rw [rollingMean_spec, if_pos hi', if_neg (not_lt.mpr hge),
        windowAt_sum hge hi']

def smaDemo : Frame :=
  ⟨[⟨0, 0, 0, 1, 0⟩, ⟨0, 0, 0, 2, 0⟩, ⟨0, 0, 0, 4, 0⟩],
    none, none, none, none, none, none⟩

theorem simple_moving_average_spec_witness :
    colGet (simple_moving_average smaDemo 2) 1 =
      some ((∑ j ∈ Finset.range 2,
        (closes smaDemo).getD (1 + 1 - 2 + j) 0) / (2 : ℚ)) :=
  ((simple_moving_average_spec smaDemo 2 (by norm_num)).2 1
    (by simp [smaDemo])).2 (by norm_num)




def rsi13Ex : List ℚ := [8, 7, 7, 7, 7, 7, 7, 7, 7, 7, 7, 7, 7, 7]

/-- C3 (counterexample to the claim as stated): on a 14-bar series whose
only move is one drop, rsi is already defined at index 13 < 14, because
pandas `where(delta > 0, 0)` turns the NaN first delta into a 0
gain/loss, so the 14-wide rolling means exist at index 13. -/
theorem rsi_defined_at_13 :
    colGet (rsiCol rsi13Ex) 13 = some 0 ∧ (13 : ℕ) < 14 :=
  ⟨by with_unfolding_all decide, by norm_num⟩

/-- C3 (amended): rsi is undefined at every index < 13, and 13 is the
first index at which rsi can be defined. -/
theorem rsi_first_defined_13 :
    (∀ (cs : List ℚ) (i : ℕ), i < 13 → colGet (rsiCol cs) i = none) ∧
    colGet (rsiCol rsi13Ex) 13 = some 0 := by
  exact ⟨rsiCol_undefined_lt13, by with_unfolding_all decide⟩

theorem rsi_first_defined_13_witness :
    colGet (rsiCol rsi13Ex) 5 = none ∧ colGet (rsiCol rsi13Ex) 13 = some 0 :=
  ⟨rsi_first_defined_13.1 rsi13Ex 5 (by norm_num), rsi_first_defined_13.2⟩




theorem closes_length (df : Frame) : (closes df).length = df.bars.length :=
  List.length_map _ _

theorem rollingMean_length (xs : List ℚ) (w : ℕ) :
    (rollingMean xs w).length = xs.length := by
  simp [rollingMean]

theorem rsiCol_length (cs : List ℚ) : (rsiCol cs).length = cs.length := by
  simp [rsiCol]

theorem bbUpperCol_length (cs : List ℚ) :
    (bbUpperCol cs).length = cs.length := by
  simp [bbUpperCol]

theorem bbLowerCol_length (cs : List ℚ) :
    (bbLowerCol cs).length = cs.length := by
  simp [bbLowerCol]

def shortFrame : Frame :=
  ⟨List.replicate 5 ⟨1, 2, 0, 1, 3⟩, none, none, none, none, none, none⟩

/-- C4 (counterexample to the claim as stated): on a valid 5-bar series
`calculate_technical_indicators` returns no enriched series at all — it
returns `None` — contradicting "never returns no result / null for the
whole series". -/
theorem indicators_none_on_short :
    calculate_technical_indicators (some shortFrame) = none ∧
    shortFrame.bars.length < 20 := by
  constructor
  · show (if shortFrame.bars.length < 20 then none
      else some (enrich shortFrame)) = none
    rw [if_pos (by simp [shortFrame])]
  · simp [shortFrame]

/-- C4 (amended): for every series of at least 20 bars the indicator
engine returns an enriched series of the same length whose indicator
entries are explicit undefined markers wherever the preceding history is
insufficient (before index 19 for the window-20 columns, before index 49
for SMA_50, before index 13 for RSI); for shorter series it returns
`None` instead of an enriched series. -/
theorem indicators_enrich_of_long (df : Frame) (h : 20 ≤ df.bars.length) :
    calculate_technical_indicators (some df) = some (enrich df) ∧
    (enrich df).bars = df.bars ∧
    (∃ c, (enrich df).sma20 = some c ∧ c.length = df.bars.length ∧
      ∀ i, i + 1 < 20 → colGet c i = none) ∧
    (∃ c, (enrich df).sma50 = some c ∧ c.length = df.bars.length ∧
      ∀ i, i + 1 < 50 → colGet c i = none) ∧
    (∃ c, (enrich df).rsi = some c ∧ c.length = df.bars.length ∧
      ∀ i, i < 13 → colGet c i = none) ∧
    (∃ c, (enrich df).bbMiddle = some c ∧ c.length = df.bars.length ∧
      ∀ i, i + 1 < 20 → colGet c i = none) ∧
    (∃ c, (enrich df).bbUpper = some c ∧ c.length = df.bars.length ∧
      ∀ i, i + 1 < 20 → colGet c i = none) ∧
    (∃ c, (enrich df).bbLower = some c ∧ c.length = df.bars.length ∧
      ∀ i, i + 1 < 20 → colGet c i = none) := by
  refine ⟨?_, rfl, ?_, ?_, ?_, ?_, ?_, ?_⟩
  · show (if df.bars.length < 20 then none else some (enrich df)) =
      some (enrich df)
    rw [if_neg (not_lt.mpr h)]
  · exact ⟨_, rfl, by rw [rollingMean_length, closes_length],
      fun i hi => rollingMean_none hi⟩
  · exact ⟨_, rfl, by rw [rollingMean_length, closes_length],
      fun i hi => rollingMean_none hi⟩
  · exact ⟨_, rfl, by rw [rsiCol_length, closes_length],
      fun i hi => rsiCol_undefined_lt13 _ i hi⟩
  · exact ⟨_, rfl, by rw [bbMiddleCol, rollingMean_length, closes_length],
      fun i hi => rollingMean_none hi⟩
  · exact ⟨_, rfl, by rw [bbUpperCol_length, closes_length],
      fun i hi => bbUpperCol_none hi⟩
  · exact ⟨_, rfl, by rw [bbLowerCol_length, closes_length],
      fun i hi => bbLowerCol_none hi⟩

def frameC4 : Frame :=
  ⟨List.replicate 20 ⟨3, 4, 2, 3, 9⟩, none, none, none, none, none, none⟩

theorem indicators_enrich_of_long_witness :
    calculate_technical_indicators (some frameC4) = some (enrich frameC4) ∧
    (enrich frameC4).bars = frameC4.bars :=
  (fun hconj => ⟨hconj.1, hconj.2.1⟩)
    (indicators_enrich_of_long frameC4 (by simp [frameC4]))




theorem rollingVar_eq_some {xs : List ℚ} {w i : ℕ} {v : ℚ}
    (h : colGet (rollingVar xs w) i = some v) :
    i < xs.length ∧ w ≤ i + 1 ∧
      v = ((windowAt xs w i).map
        fun x => (x - (windowAt xs w i).sum / (w : ℚ)) ^ 2).sum /
          ((w : ℚ) - 1) := by
  unfold rollingVar at h
  rw [colGet_range_map] at h
  by_cases h1 : i < xs.length
  · rw [if_pos h1] at h
    by_cases h2 : i + 1 < w
    · rw [if_pos h2] at h; cases h
    · rw [if_neg h2] at h
      exact ⟨h1, not_lt.mp h2, (Option.some.inj h).symm⟩
  · rw [if_neg h1] at h; cases h

theorem bbUpperCol_eq_some {cs : List ℚ} {i : ℕ} {u : ℝ}
    (h : colGet (bbUpperCol cs) i = some u) :
    ∃ m v, colGet (bbMiddleCol cs) i = some m ∧
      colGet (rollingVar cs 20) i = some v ∧
      u = (m : ℝ) + Real.sqrt (v : ℝ) * 2 := by
  unfold bbUpperCol at h
  rw [colGet_range_map] at h
  by_cases h1 : i < cs.length
  · rw [if_pos h1] at h
    rcases cm : colGet (bbMiddleCol cs) i with _ | m <;>
      rcases cv : colGet (rollingVar cs 20) i with _ | v <;>
      rw [cm, cv] at h
    · cases h
    · cases h
    · cases h
    · exact ⟨m, v, rfl, rfl, (Option.some.inj h).symm⟩
  · rw [if_neg h1] at h; cases h

theorem bbLowerCol_eq_some {cs : List ℚ} {i : ℕ} {l : ℝ}
    (h : colGet (bbLowerCol cs) i = some l) :
    ∃ m v, colGet (bbMiddleCol cs) i = some m ∧
      colGet (rollingVar cs 20) i = some v ∧
      l = (m : ℝ) - Real.sqrt (v : ℝ) * 2 := by
  unfold bbLowerCol at h
  rw [colGet_range_map] at h
  by_cases h1 : i < cs.length
  · rw [if_pos h1] at h
    rcases cm : colGet (bbMiddleCol cs) i with _ | m <;>
      rcases cv : colGet (rollingVar cs 20) i with _ | v <;>
      rw [cm, cv] at h
    · cases h
    · cases h
    · cases h
    · exact ⟨m, v, rfl, rfl, (Option.some.inj h).symm⟩
  · rw [if_neg h1] at h; cases h

theorem rollingVar_flat {cs : List ℚ} {i : ℕ} {v : ℚ}
    (hv : colGet (rollingVar cs 20) i = some v)
    (hflat : ∃ a, ∀ x ∈ windowAt cs 20 i, x = a) : v = 0 := by
  obtain ⟨a, ha⟩ := hflat
  obtain ⟨hi, hw, rfl⟩ := rollingVar_eq_some hv
  have hlen : (windowAt cs 20 i).length = 20 := windowAt_length hw hi
  have hsum : (windowAt cs 20 i).sum = 20 * a := by
    rw [List.eq_replicate_of_mem ha, List.sum_replicate, hlen]
    simp [nsmul_eq_mul]
  have hmean : (windowAt cs 20 i).sum / (20 : ℚ) = a := by
    rw [hsum, mul_div_cancel_left₀ _ (by norm_num : (20 : ℚ) ≠ 0)]
  have hzero : ∀ y ∈ (windowAt cs 20 i).map
      (fun x => (x - (windowAt cs 20 i).sum / ((20 : ℕ) : ℚ)) ^ 2), y = 0 := by
    intro y hy
    obtain ⟨x, hx, rfl⟩ := List.mem_map.mp hy
    have : ((20 : ℕ) : ℚ) = (20 : ℚ) := by norm_num
    rw [this, hmean, ha x hx]
    ring
  rw [List.sum_eq_zero hzero, zero_div]

/-- C8: wherever the three Bollinger columns are all defined,
`bb_lower <= bb_middle <= bb_upper`, and over a flat window (all closes
equal) the three coincide. -/
theorem bollinger_order (cs : List ℚ) (i : ℕ) (u l : ℝ) (m : ℚ)
    (hu : colGet (bbUpperCol cs) i = some u)
    (hm : colGet (bbMiddleCol cs) i = some m)
    (hl : colGet (bbLowerCol cs) i = some l) :
    l ≤ (m : ℝ) ∧ (m : ℝ) ≤ u ∧
    ((∃ a, ∀ x ∈ windowAt cs 20 i, x = a) →
      l = (m : ℝ) ∧ (m : ℝ) = u) := by
  obtain ⟨m1, v1, hm1, hv1, rfl⟩ := bbUpperCol_eq_some hu
  obtain ⟨m2, v2, hm2, hv2, rfl⟩ := bbLowerCol_eq_some hl
  have em1 : m1 = m := Option.some.inj (hm1 ▸ hm)
  have em2 : m2 = m := Option.some.inj (hm2 ▸ hm)
  have ev : v2 = v1 := Option.some.inj (hv2 ▸ hv1)
  subst em1; subst em2; subst ev
  have hs : 0 ≤ Real.sqrt (v2 : ℝ) := Real.sqrt_nonneg _
  refine ⟨by linarith, by linarith, ?_⟩
  intro hflat
  have hv0 : v2 = 0 := rollingVar_flat hv1 hflat
  subst hv0
  rw [Rat.cast_zero, Real.sqrt_zero]
  constructor <;> ring

def flatC8 : List ℚ := List.replicate 20 5

theorem bollinger_order_witness :
    ((5 : ℚ) : ℝ) - Real.sqrt ((0 : ℚ) : ℝ) * 2 = ((5 : ℚ) : ℝ) ∧
    ((5 : ℚ) : ℝ) = ((5 : ℚ) : ℝ) + Real.sqrt ((0 : ℚ) : ℝ) * 2 :=
  (bollinger_order flatC8 19
    (((5 : ℚ) : ℝ) + Real.sqrt ((0 : ℚ) : ℝ) * 2)
    (((5 : ℚ) : ℝ) - Real.sqrt ((0 : ℚ) : ℝ) * 2) 5
    (by with_unfolding_all rfl)
    (by with_unfolding_all decide)
    (by with_unfolding_all rfl)).2.2
    ⟨5, by with_unfolding_all decide⟩




theorem generate_signal_short {df : Frame} (h : df.bars.length < 20) :
    generate_signal (some df) =
      some ⟨"INSUFFICIENT_DATA", "Not enough data", 0⟩ := by
  simp only [generate_signal]
  rw [if_pos h]

theorem generate_signal_defined {df : Frame} {sCol rCol : List (Option ℚ)}
    {s r : ℚ} (hlen : ¬ df.bars.length < 20)
    (hsc : df.sma20 = some sCol) (hrc : df.rsi = some rCol)
    (hs : colGet sCol (df.bars.length - 1) = some s)
    (hr : colGet rCol (df.bars.length - 1) = some r) :
    generate_signal (some df) =
      if lastClose df > s then
        if r < 70 then
          some ⟨"BUY", "Price above SMA20, RSI: " ++ fmtOneDec r,
            min 80 (50 + (lastClose df - s) / s * 1000)⟩
        else
          some ⟨"NEUTRAL", "Mixed signals, RSI: " ++ fmtOneDec r, 40⟩
      else
        if r > 30 then
          some ⟨"SELL", "Price below SMA20, RSI: " ++ fmtOneDec r,
            min 80 (50 + (s - lastClose df) / s * 1000)⟩
        else
          some ⟨"NEUTRAL", "Mixed signals, RSI: " ++ fmtOneDec r, 40⟩ := by
  simp only [generate_signal]
  rw [if_neg hlen]
  simp only [hsc, hrc, hs, hr]

theorem generate_signal_calculating {df : Frame}
    {sCol rCol : List (Option ℚ)} (hlen : ¬ df.bars.length < 20)
    (hsc : df.sma20 = some sCol) (hrc : df.rsi = some rCol)
    (h : colGet sCol (df.bars.length - 1) = none ∨
      colGet rCol (df.bars.length - 1) = none) :
    generate_signal (some df) = some ⟨"NEUTRAL", "Calculating...", 50⟩ := by
  rcases cs : colGet sCol (df.bars.length - 1) with _ | s
  · simp only [generate_signal]
    rw [if_neg hlen]
    simp only [hsc, hrc, cs]
  · rcases h with h | h
    · rw [cs] at h; cases h
    · simp only [generate_signal]
      rw [if_neg hlen]
      simp only [hsc, hrc, cs, h]

theorem generate_signal_keyerror {df : Frame}
    (hlen : ¬ df.bars.length < 20)
    (h : df.sma20 = none ∨ df.rsi = none) :
    generate_signal (some df) = none := by
  rcases cs : df.sma20 with _ | sCol
  · simp only [generate_signal]
    rw [if_neg hlen]
    simp only [cs]
  · rcases h with h | h
    · rw [cs] at h; cases h
    · simp only [generate_signal]
      rw [if_neg hlen]
      simp only [cs, h]




/-- C1: for a series of at least 20 bars whose latest bar has a defined
SMA_20 value `s` and a defined RSI value `r`, the signal is BUY with the
capped confidence formula when the latest close is above `s` and `r < 70`;
SELL (mirrored formula) when the latest close is at or below `s` and
`r > 30`; NEUTRAL with confidence 40 otherwise; and exactly one of the
three cases applies. -/
theorem generate_signal_branches (df : Frame) (sCol rCol : List (Option ℚ))
    (s r p : ℚ) (hlen : 20 ≤ df.bars.length)
    (hsc : df.sma20 = some sCol) (hrc : df.rsi = some rCol)
    (hs : colGet sCol (df.bars.length - 1) = some s)
    (hr : colGet rCol (df.bars.length - 1) = some r)
    (hp : lastClose df = p) :
    ((p > s ∧ r < 70) → generate_signal (some df) =
      some ⟨"BUY", "Price above SMA20, RSI: " ++ fmtOneDec r,
        min 80 (50 + (p - s) / s * 1000)⟩) ∧
    ((p ≤ s ∧ r > 30) → generate_signal (some df) =
      some ⟨"SELL", "Price below SMA20, RSI: " ++ fmtOneDec r,
        min 80 (50 + (s - p) / s * 1000)⟩) ∧
    (((p > s ∧ 70 ≤ r) ∨ (p ≤ s ∧ r ≤ 30)) → generate_signal (some df) =
      some ⟨"NEUTRAL", "Mixed signals, RSI: " ++ fmtOneDec r, 40⟩) ∧
    ((p > s ∧ r < 70) ∨ (p ≤ s ∧ r > 30) ∨
      ((p > s ∧ 70 ≤ r) ∨ (p ≤ s ∧ r ≤ 30))) ∧
    ¬((p > s ∧ r < 70) ∧ (p ≤ s ∧ r > 30)) ∧
    ¬((p > s ∧ r < 70) ∧ ((p > s ∧ 70 ≤ r) ∨ (p ≤ s ∧ r ≤ 30))) ∧
    ¬((p ≤ s ∧ r > 30) ∧ ((p > s ∧ 70 ≤ r) ∨ (p ≤ s ∧ r ≤ 30))) := by
  have key := generate_signal_defined (not_lt.mpr hlen) hsc hrc hs hr
  rw [hp] at key
  refine ⟨?_, ?_, ?_, ?_, ?_, ?_, ?_⟩
  · rintro ⟨h1, h2⟩
    rw [key, if_pos h1, if_pos h2]
  · rintro ⟨h1, h2⟩
    rw [key, if_neg (not_lt.mpr h1), if_pos h2]
  · rintro (⟨h1, h2⟩ | ⟨h1, h2⟩)
    · rw [key, if_pos h1, if_neg (not_lt.mpr h2)]
    · rw [key, if_neg (not_lt.mpr h1), if_neg (not_lt.mpr h2)]
  · rcases lt_or_le s p with h1 | h1
    · rcases lt_or_le r 70 with h2 | h2
      · exact Or.inl ⟨h1, h2⟩
      · exact Or.inr (Or.inr (Or.inl ⟨h1, h2⟩))
    · rcases lt_or_le (30 : ℚ) r with h2 | h2
      · exact Or.inr (Or.inl ⟨h1, h2⟩)
      · exact Or.inr (Or.inr (Or.inr ⟨h1, h2⟩))
  · rintro ⟨⟨h1, -⟩, ⟨h2, -⟩⟩
    exact absurd h2 (not_le.mpr h1)
  · rintro ⟨⟨h1, h2⟩, ⟨-, h3⟩ | ⟨h3, -⟩⟩
    · exact absurd h2 (not_lt.mpr h3)
    · exact absurd h1 (not_lt.mpr h3)
  · rintro ⟨⟨h1, h2⟩, ⟨h3, -⟩ | ⟨-, h3⟩⟩
    · exact absurd h3 (not_lt.mpr h1)
    · exact absurd h2 (not_lt.mpr h3)

def frameC1 : Frame :=
  ⟨List.replicate 20 ⟨0, 0, 0, 6, 0⟩,
    some (List.replicate 19 none ++ [some 5]), none,
    some (List.replicate 19 none ++ [some 50]), none, none, none⟩

theorem generate_signal_branches_witness :
    generate_signal (some frameC1) =
      some ⟨"BUY", "Price above SMA20, RSI: " ++ fmtOneDec 50,
        min 80 (50 + ((6 : ℚ) - 5) / 5 * 1000)⟩ :=
  (generate_signal_branches frameC1 _ _ 5 50 6
    (by norm_num [frameC1]) rfl rfl
    (by with_unfolding_all decide) (by with_unfolding_all decide)
    (by with_unfolding_all decide)).1
    ⟨by norm_num, by norm_num⟩

/-- C2: a missing frame, an empty frame, and any frame of fewer than 20
bars all produce the INSUFFICIENT_DATA signal with reason "Not enough
data" and confidence 0, and no frame of at least 20 bars ever produces
an INSUFFICIENT_DATA signal. -/
theorem generate_signal_insufficient (odf : Option Frame) :
    ((odf = none ∨ ∃ df, odf = some df ∧ df.bars.length < 20) →
      generate_signal odf =
        some ⟨"INSUFFICIENT_DATA", "Not enough data", 0⟩) ∧
    (∀ df sig, odf = some df → 20 ≤ df.bars.length →
      generate_signal odf = some sig → sig.kind ≠ "INSUFFICIENT_DATA") := by
  constructor
  · rintro (rfl | ⟨df, rfl, hlt⟩)
    · rfl
    · exact generate_signal_short hlt
  · rintro df sig rfl hlen h
    rcases cs : df.sma20 with _ | sCol
    · rw [generate_signal_keyerror (not_lt.mpr hlen) (Or.inl cs)] at h
      cases h
    rcases cr : df.rsi with _ | rCol
    · rw [generate_signal_keyerror (not_lt.mpr hlen) (Or.inr cr)] at h
      cases h
    rcases cgs : colGet sCol (df.bars.length - 1) with _ | s
    · rw [generate_signal_calculating (not_lt.mpr hlen) cs cr
        (Or.inl cgs)] at h
      cases h
      simp
    rcases cgr : colGet rCol (df.bars.length - 1) with _ | r
    · rw [generate_signal_calculating (not_lt.mpr hlen) cs cr
        (Or.inr cgr)] at h
      cases h
      simp
    rw [generate_signal_defined (not_lt.mpr hlen) cs cr cgs cgr] at h
    split_ifs at h <;> cases h <;> simp

def frameC2 : Frame :=
  ⟨List.replicate 3 ⟨1, 1, 1, 1, 1⟩, none, none, none, none, none, none⟩

theorem generate_signal_insufficient_witness :
    generate_signal (some frameC2) =
      some ⟨"INSUFFICIENT_DATA", "Not enough data", 0⟩ :=
  (generate_signal_insufficient (some frameC2)).1
    (Or.inr ⟨frameC2, rfl, by norm_num [frameC2]⟩)




def negFrame : Frame :=
  ⟨(List.replicate 18 ⟨0, 0, 0, -2, 0⟩) ++ [⟨0, 0, 0, -3, 0⟩, ⟨0, 0, 0, -1, 0⟩],
    none, none, none, none, none, none⟩

/-- C5 (counterexample to the claim as stated): on a 20-bar series of
negative prices (SMA_20 = -2, latest close = -1, RSI = 200/3 < 70) the
code takes the BUY branch and `min(80, 50 + ((-1) - (-2)) / (-2) * 1000)`
evaluates to -450: a BUY confidence far below 0, so BUY/SELL confidence
is not clamped to [0, 80]. -/
theorem confidence_negative_example :
    generate_signal (some (calculate_technical_indicators_effect negFrame)) =
      some ⟨"BUY", "Price above SMA20, RSI: " ++ fmtOneDec (200 / 3), -450⟩ ∧
    (-450 : ℚ) < 0 :=
  ⟨by with_unfolding_all decide, by norm_num⟩

/-- C5 (amended): the confidence is exactly 0 for INSUFFICIENT_DATA,
exactly 50 for the NEUTRAL "Calculating..." branch, exactly 40 for the
NEUTRAL "Mixed signals" branch, and at most 80 (capped by `min`) for BUY
and SELL; the BUY/SELL confidence is additionally at least 50 — hence in
[0, 80] — whenever the latest SMA_20 value is positive, but it can drop
below 0 when the SMA_20 value is negative. -/
theorem confidence_bounds (odf : Option Frame) (sig : Signal)
    (h : generate_signal odf = some sig) :
    (sig = ⟨"INSUFFICIENT_DATA", "Not enough data", 0⟩ ∨
      sig = ⟨"NEUTRAL", "Calculating...", 50⟩ ∨
      (sig.kind = "NEUTRAL" ∧ sig.confidence = 40) ∨
      ((sig.kind = "BUY" ∨ sig.kind = "SELL") ∧ sig.confidence ≤ 80)) ∧
    (∀ df sCol s, odf = some df → df.sma20 = some sCol →
      colGet sCol (df.bars.length - 1) = some s → 0 < s →
      0 ≤ sig.confidence) := by
  rcases odf with _ | df
  · cases h
    exact ⟨Or.inl rfl, by rintro df sCol s ⟨⟩⟩
  by_cases hlen : df.bars.length < 20
  · rw [generate_signal_short hlen] at h
    cases h
    exact ⟨Or.inl rfl, fun _ _ _ _ _ _ _ => le_refl 0⟩
  rcases cs : df.sma20 with _ | sCol
  · rw [generate_signal_keyerror hlen (Or.inl cs)] at h
    cases h
  rcases cr : df.rsi with _ | rCol
  · rw [generate_signal_keyerror hlen (Or.inr cr)] at h
    cases h
  rcases cgs : colGet sCol (df.bars.length - 1) with _ | s
  · rw [generate_signal_calculating hlen cs cr (Or.inl cgs)] at h
    cases h
    refine ⟨Or.inr (Or.inl rfl), ?_⟩
    intro _ _ _ _ _ _ _
    norm_num
  rcases cgr : colGet rCol (df.bars.length - 1) with _ | r
  · rw [generate_signal_calculating hlen cs cr (Or.inr cgr)] at h
    cases h
    refine ⟨Or.inr (Or.inl rfl), ?_⟩
    intro _ _ _ _ _ _ _
    norm_num
  rw [generate_signal_defined hlen cs cr cgs cgr] at h
  have hsval : ∀ (df' : Frame) (sCol' : List (Option ℚ)) (s' : ℚ),
      some df = some df' → df'.sma20 = some sCol' →
      colGet sCol' (df'.bars.length - 1) = some s' → s' = s := by
    rintro df' sCol' s' ⟨⟩ hsc' hgs'
    rw [cs] at hsc'
    cases hsc'
    rw [cgs] at hgs'
    exact (Option.some.inj hgs').symm
  split_ifs at h with h1 h2 h3 <;> cases h
  · refine ⟨Or.inr (Or.inr (Or.inr ⟨Or.inl rfl, min_le_left _ _⟩)), ?_⟩
    intro df' sCol' s' hdf hsc' hgs' hpos
    have es : s' = s := hsval df' sCol' s' hdf hsc' hgs'
    rw [es] at hpos
    show (0 : ℚ) ≤ min 80 (50 + (lastClose df - s) / s * 1000)
    have : (0 : ℚ) < (lastClose df - s) / s := div_pos (by linarith) hpos
    have h80 : (0 : ℚ) ≤ 80 := by norm_num
    refine le_min h80 (by nlinarith)
  · exact ⟨Or.inr (Or.inr (Or.inl ⟨rfl, rfl⟩)), fun _ _ _ _ _ _ _ => by
      norm_num⟩
  · refine ⟨Or.inr (Or.inr (Or.inr ⟨Or.inr rfl, min_le_left _ _⟩)), ?_⟩
    intro df' sCol' s' hdf hsc' hgs' hpos
    have es : s' = s := hsval df' sCol' s' hdf hsc' hgs'
    rw [es] at hpos
    show (0 : ℚ) ≤ min 80 (50 + (s - lastClose df) / s * 1000)
    have hle : lastClose df ≤ s := not_lt.mp h1
    have : (0 : ℚ) ≤ (s - lastClose df) / s :=
      div_nonneg (by linarith) (le_of_lt hpos)
    have h80 : (0 : ℚ) ≤ 80 := by norm_num
    refine le_min h80 (by nlinarith)
  · exact ⟨Or.inr (Or.inr (Or.inl ⟨rfl, rfl⟩)), fun _ _ _ _ _ _ _ => by
      norm_num⟩

def frameC5 : Frame :=
  ⟨List.replicate 20 ⟨0, 0, 0, 6, 0⟩,
    some (List.replicate 19 none ++ [some 5]), none,
    some (List.replicate 19 none ++ [some 50]), none, none, none⟩

theorem confidence_bounds_witness :
    (0 : ℚ) ≤ (Signal.mk "BUY" ("Price above SMA20, RSI: " ++ fmtOneDec 50)
      (min 80 (50 + ((6 : ℚ) - 5) / 5 * 1000))).confidence :=
  (confidence_bounds (some frameC5) _ (by with_unfolding_all decide)).2
    frameC5 _ 5 rfl rfl (by with_unfolding_all decide) (by norm_num)




def rawC9 : Frame :=
  ⟨List.replicate 20 ⟨1, 1, 1, 1, 1⟩, none, none, none, none, none, none⟩

/-- C9 (counterexample to the claim as stated): the engine is not
side-effect-free — `calculate_technical_indicators` assigns the indicator
columns on its argument frame, so after the call the caller's 20-bar raw
frame is no longer equal to what was passed in (it has gained an SMA_20
column, among others). -/
theorem indicators_mutate_input :
    calculate_technical_indicators_effect rawC9 ≠ rawC9 := by
  intro hEq
  have h1 : (calculate_technical_indicators_effect rawC9).sma20 =
      some (rollingMean (closes rawC9) 20) := by
    show (if rawC9.bars.length < 20 then rawC9 else enrich rawC9).sma20 = _
    rw [if_neg (by norm_num [rawC9])]
    rfl
  rw [hEq] at h1
  simp [rawC9] at h1

/-- C9 (amended): the engine mutates its input in place — on a frame of
at least 20 bars the returned frame is exactly the frame the input has
been turned into, with the six indicator columns assigned onto it — but
it does preserve the OHLCV rows themselves: the bars of the input after
the call are unchanged (and a sub-20-bar input is left untouched
entirely). -/
theorem indicators_preserve_bars (df : Frame) :
    (calculate_technical_indicators_effect df).bars = df.bars ∧
    (20 ≤ df.bars.length →
      calculate_technical_indicators (some df) =
        some (calculate_technical_indicators_effect df)) ∧
    (df.bars.length < 20 → calculate_technical_indicators_effect df = df) := by
  refine ⟨?_, ?_, ?_⟩
  · show (if df.bars.length < 20 then df else enrich df).bars = df.bars
    split <;> rfl
  · intro h
    show (if df.bars.length < 20 then none else some (enrich df)) =
      some (if df.bars.length < 20 then df else enrich df)
    rw [if_neg (not_lt.mpr h), if_neg (not_lt.mpr h)]
  · intro h
    show (if df.bars.length < 20 then df else enrich df) = df
    rw [if_pos h]

theorem indicators_preserve_bars_witness :
    calculate_technical_indicators (some rawC9) =
      some (calculate_technical_indicators_effect rawC9) :=
  (indicators_preserve_bars rawC9).2.1 (by norm_num [rawC9])

/-- C10: the signal of an enriched frame of at least 20 bars depends only
on the latest close, the latest SMA_20 cell and the latest RSI cell: two
such frames that agree on those three values (including on which are
undefined) get identical signals, whatever their other bars and columns
hold. -/
theorem signal_depends_only_on_latest (df1 df2 : Frame)
    (s1 r1 s2 r2 : List (Option ℚ))
    (h1s : df1.sma20 = some s1) (h1r : df1.rsi = some r1)
    (h2s : df2.sma20 = some s2) (h2r : df2.rsi = some r2)
    (hl1 : 20 ≤ df1.bars.length) (hl2 : 20 ≤ df2.bars.length)
    (hc : lastClose df1 = lastClose df2)
    (hs : colGet s1 (df1.bars.length - 1) = colGet s2 (df2.bars.length - 1))
    (hr : colGet r1 (df1.bars.length - 1) = colGet r2 (df2.bars.length - 1)) :
    generate_signal (some df1) = generate_signal (some df2) := by
  rcases cgs : colGet s2 (df2.bars.length - 1) with _ | s
  · rw [generate_signal_calculating (not_lt.mpr hl1) h1s h1r
        (Or.inl (hs.trans cgs)),
      generate_signal_calculating (not_lt.mpr hl2) h2s h2r (Or.inl cgs)]
  rcases cgr : colGet r2 (df2.bars.length - 1) with _ | r
  · rw [generate_signal_calculating (not_lt.mpr hl1) h1s h1r
        (Or.inr (hr.trans cgr)),
      generate_signal_calculating (not_lt.mpr hl2) h2s h2r (Or.inr cgr)]
  rw [generate_signal_defined (not_lt.mpr hl1) h1s h1r
      (hs.trans cgs) (hr.trans cgr),
    generate_signal_defined (not_lt.mpr hl2) h2s h2r cgs cgr, hc]

def frameC10a : Frame :=
  ⟨List.replicate 19 ⟨0, 0, 0, 1, 0⟩ ++ [⟨0, 0, 0, 6, 0⟩],
    some (List.replicate 19 none ++ [some 5]), none,
    some (List.replicate 19 none ++ [some 50]), none, none, none⟩

def frameC10b : Frame :=
  ⟨List.replicate 21 ⟨2, 3, 1, 9, 7⟩ ++ [⟨4, 4, 4, 6, 4⟩],
    some (List.replicate 21 (some 100) ++ [some 5]),
    some (List.replicate 22 (some 3)),
    some (List.replicate 21 (some 2) ++ [some 50]),
    some (List.replicate 22 (some 1)), none, none⟩

theorem signal_depends_only_on_latest_witness :
    generate_signal (some frameC10a) = generate_signal (some frameC10b) :=
  signal_depends_only_on_latest frameC10a frameC10b _ _ _ _
    rfl rfl rfl rfl
    (by norm_num [frameC10a]) (by norm_num [frameC10b])
    (by with_unfolding_all decide)
    (by with_unfolding_all decide)
    (by with_unfolding_all decide)


end Robot
